import Mathlib

/-!
Shallow embedding of `src/volunteerScheduler.py` (class `VolunteerScheduler`).

Time points (Python `datetime` / pandas `Timestamp` values) are embedded as
integers counting seconds since 1970-01-01; one calendar day is 86400 such
units, and all Python floor divisions (`//`, `timedelta.days`) land on `Int`
division by a positive constant, which rounds toward negative infinity exactly
as Python does.  Valuations of the CP-SAT decision variables are embedded as
boolean (and, for the load variables, integer) functions of the variable
indices, and the constraint model built by `solve_schedule` becomes a
satisfaction predicate on such valuations.
-/

/-- Value of a boolean decision variable as the 0/1 integer CP-SAT sums it as. -/
def b2i (b : Bool) : Int := if b then 1 else 0

/-- Python `str.strip()`: drop whitespace from both ends of the string. -/
def pyStrip (s : String) : String :=
  String.mk (((s.data.dropWhile Char.isWhitespace).reverse.dropWhile Char.isWhitespace).reverse)

/-- Python `str.capitalize()`: first character uppercased, the rest lowercased. -/
def pyCapitalize (s : String) : String :=
  match s.data with
  | [] => ""
  | c :: cs => String.mk (Char.toUpper c :: cs.map Char.toLower)

/-- The expression `str(frequency).strip().capitalize()` computed at both of the
code's frequency-classification sites (lines 69 and 113). -/
def normFreq (s : String) : String := pyCapitalize (pyStrip s)

/-- Day count since 1970-01-01 of the proleptic Gregorian civil date `y-m-d`,
the day-number arithmetic underlying Python `datetime` (valid for months 1-12). -/
def daysFromCivil (y m d : Int) : Int :=
  let y2 := if m ≤ 2 then y - 1 else y
  let era := y2 / 400
  let yoe := y2 - era * 400
  let mp := (m + 9) % 12
  let doy := (153 * mp + 2) / 5 + d - 1
  let doe := yoe * 365 + yoe / 4 - yoe / 100 + doy
  era * 146097 + doe - 719468

/-- Python `datetime(y, m, d)` as a time point (midnight, seconds since epoch). -/
def mkDatetime (y m d : Int) : Int := 86400 * daysFromCivil y m d

/-- Python `datetime.weekday()`: Monday = 0 .. Sunday = 6 (1970-01-01 was a Thursday). -/
def pyWeekday (t : Int) : Int := (t / 86400 + 3) % 7

/-- Python `.date()` viewed as the calendar-day number of a time point: the
time of day is discarded by flooring to whole days. -/
def calendarDay (t : Int) : Int := t / 86400

/-- A volunteer record as `load_volunteers` builds it: `team` arrives lower-cased
and stripped, `allowed_date` is `none` when the spreadsheet cell is empty, and
`camera_prefs` maps the camera ids 1..7 to booleans. -/
structure Volunteer where
  name : String
  team : String
  priority : Bool
  frequency : String
  allowed_date : Option Int
  unavailable_dates : List Int
  camera_prefs : Nat → Bool

/-- Placeholder record used only as the default value of list lookups. -/
def vdef : Volunteer := ⟨"", "", false, "", none, [], fun _ => false⟩

/-- `VolunteerScheduler.is_volunteer_available` (source lines 62-75). -/
def is_volunteer_available (vol : Volunteer) (day_type : String) (date : Int) : Bool :=
  if vol.team = "sub" then false
  else if vol.team = "saturday" ∧ day_type ≠ "Saturday" then false
  else if vol.team = "sunday" ∧ day_type ≠ "Sunday" then false
  else if vol.unavailable_dates.any (fun u => calendarDay date = calendarDay u) then false
  else
    let freq := normFreq vol.frequency
    match vol.allowed_date with
    | some ad =>
      if freq = "Default" ∨ freq = "Monthly" then
        let weeks_diff := (date - ad) / 86400 / 7
        if freq = "Default" ∧ weeks_diff % 2 ≠ 0 then false
        else if freq = "Monthly" ∧ weeks_diff % 4 ≠ 0 then false
        else true
      else true
    | none => true

/-- The day-stepping loop of `generate_schedule_dates` (source lines 53-58): walk
one day at a time from `current` up to `last`, keeping Saturdays and Sundays. -/
def dateLoop (current last : Int) : List (String × Int) :=
  if current ≤ last then
    (if pyWeekday current = 5 then [("Saturday", current)]
     else if pyWeekday current = 6 then [("Sunday", current)]
     else []) ++ dateLoop (current + 86400) last
  else []
termination_by (last + 86400 - current).toNat
decreasing_by simp_wf; omega

/-- The `last_day` expression of `generate_schedule_dates` (source line 52):
first day of the following month — rolling December over to January of the
next year — minus one day. -/
def lastDayOfMonth (target_month target_year : Int) : Int :=
  (if target_month < 12 then mkDatetime target_year (target_month + 1) 1
   else mkDatetime (target_year + 1) 1 1) - 86400

/-- `VolunteerScheduler.generate_schedule_dates` (source lines 50-60). -/
def generate_schedule_dates (target_month target_year : Int) : List (String × Int) :=
  dateLoop (mkDatetime target_year target_month 1) (lastDayOfMonth target_month target_year)

/-- The camera ids, `range(1, num_cameras + 1)` with `num_cameras = 7`. -/
def cams : Finset Nat := Finset.Icc 1 7

/-- The check `any(vol.camera_prefs.values())` of source line 95. -/
def has_any_pref (vol : Volunteer) : Bool :=
  (List.range 7).any (fun i => vol.camera_prefs (i + 1))

/-- The frequency cap of source lines 113-114. -/
def max_cap (frequency : String) : Int :=
  if normFreq frequency = "Monthly" then 1
  else if normFreq frequency = "Default" then 2
  else 4

/-- The tier weight of source lines 124-127. -/
def tier_weight (vol : Volunteer) : Int :=
  let base : Int :=
    if (vol.team = "saturday" ∨ vol.team = "sunday") ∧ normFreq vol.frequency = "Default"
    then 100 else 50
  if vol.priority then base * 50 else base

/-- The camera-training constraints added by source lines 93-107: the list of
variable indices `(v, d, c)` whose `assigned` variable is pinned to 0 because
volunteer `v` declared at least one preferred camera and camera `c` is not one
of them. -/
def cameraForcedZero (vols : List Volunteer) (dates : List (String × Int)) :
    List (Nat × Nat × Nat) :=
  (List.range vols.length).flatMap (fun v =>
    (List.range dates.length).flatMap (fun d =>
      ((List.range 7).map (· + 1)).filterMap (fun c =>
        if has_any_pref (vols.getD v vdef) = true ∧ (vols.getD v vdef).camera_prefs c = false
        then some (v, d, c) else none)))

/-- Satisfaction of the constraint model built by `solve_schedule` (source lines
78-115) by a valuation of the `assigned` (`a`), `unfilled` (`u`) and
`volunteer_load` (`load`) variables: the coverage equality, the one-camera-a-day
bound, the availability and camera-training pins, and the frequency-cap
constraints on the load variables (whose CP-SAT domain is `[0, D]`). -/
abbrev ModelSat (vols : List Volunteer) (dates : List (String × Int))
    (a : Nat → Nat → Nat → Bool) (u : Nat → Nat → Bool) (load : Nat → Int) : Prop :=
  (∀ d < dates.length, ∀ c ∈ cams,
      (∑ v ∈ Finset.range vols.length, b2i (a v d c)) + b2i (u d c) = 1) ∧
  (∀ v < vols.length, ∀ d < dates.length,
      (∑ c ∈ cams, b2i (a v d c)) ≤ 1) ∧
  (∀ v < vols.length, ∀ d < dates.length, ∀ c ∈ cams,
      is_volunteer_available (vols.getD v vdef)
          (dates.getD d ("", 0)).1 (dates.getD d ("", 0)).2 = false →
      a v d c = false) ∧
  (∀ i ∈ cameraForcedZero vols dates, a i.1 i.2.1 i.2.2 = false) ∧
  (∀ v < vols.length,
      0 ≤ load v ∧ load v ≤ (dates.length : Int) ∧
      load v = (∑ d ∈ Finset.range dates.length, ∑ c ∈ cams, b2i (a v d c)) ∧
      load v ≤ max_cap (vols.getD v vdef).frequency)

/-- The number of unfilled slots of a valuation (the quantity the objective's
dominant term penalizes). -/
def unfilledCount (dates : List (String × Int)) (u : Nat → Nat → Bool) : Int :=
  ∑ d ∈ Finset.range dates.length, ∑ c ∈ cams, b2i (u d c)

/-- The maximized objective of source lines 117-137: −1,000,000 per unfilled
slot, plus per true assignment the volunteer's tier weight and, on a declared
preferred camera, a 5000 bonus. -/
def objective (vols : List Volunteer) (dates : List (String × Int))
    (a : Nat → Nat → Nat → Bool) (u : Nat → Nat → Bool) : Int :=
  (∑ d ∈ Finset.range dates.length, ∑ c ∈ cams, (-1000000) * b2i (u d c)) +
  ∑ v ∈ Finset.range vols.length, ∑ d ∈ Finset.range dates.length, ∑ c ∈ cams,
    (tier_weight (vols.getD v vdef) * b2i (a v d c) +
      (if (vols.getD v vdef).camera_prefs c then 5000 * b2i (a v d c) else 0))

/-- One per-date row produced by `_extract_solution`: the day type, the date and,
per camera, either the assigned volunteer's name, the `'** UNFILLED **'` marker,
or nothing (the code writes no `Camera c` key when neither branch fires). -/
structure DaySchedule where
  day : String
  date : Int
  cameras : List (Option String)

/-- The `Camera c` entry of one extracted row (source lines 152-163): the
unfilled marker when the slot's `unfilled` variable is true, otherwise the name
of the first volunteer whose `assigned` variable is true. -/
def extractCamera (vols : List Volunteer) (a : Nat → Nat → Nat → Bool)
    (u : Nat → Nat → Bool) (d c : Nat) : Option String :=
  if u d c then some "** UNFILLED **"
  else ((List.range vols.length).find? (fun v => a v d c)).map
    (fun v => (vols.getD v vdef).name)

/-- `VolunteerScheduler._extract_solution` (source lines 143-164): the schedule
rows in date order together with the `total_unfilled` counter. -/
def extract_solution (vols : List Volunteer) (dates : List (String × Int))
    (a : Nat → Nat → Nat → Bool) (u : Nat → Nat → Bool) : List DaySchedule × Nat :=
  ((List.range dates.length).map (fun d =>
      { day := (dates.getD d ("", 0)).1
        date := (dates.getD d ("", 0)).2
        cameras := ((List.range 7).map (· + 1)).map (fun c => extractCamera vols a u d c) }),
   ((List.range dates.length).map (fun d =>
      (((List.range 7).map (· + 1)).filter (fun c => u d c)).length)).sum)

/-- The statuses the CP-SAT solver can return. -/
inductive CpStatus where
  | OPTIMAL
  | FEASIBLE
  | INFEASIBLE
  | UNKNOWN
  | MODEL_INVALID
deriving DecidableEq

/-- The tail of `solve_schedule` (source lines 138-141): the solution is
extracted only when the solver status is OPTIMAL or FEASIBLE; otherwise `None`
is returned. -/
def solve_schedule_result (vols : List Volunteer) (dates : List (String × Int))
    (a : Nat → Nat → Nat → Bool) (u : Nat → Nat → Bool) (status : CpStatus) :
    Option (List DaySchedule × Nat) :=
  if status = CpStatus.OPTIMAL ∨ status = CpStatus.FEASIBLE
  then some (extract_solution vols dates a u) else none

/-- The export decision of `main` (source line 212), `if res:` — Python truthiness
of the result: `None` and an empty schedule list are falsy, so the spreadsheet is
written only for a present, non-empty schedule. -/
def main_exports (res : Option (List DaySchedule × Nat)) : Bool :=
  match res with
  | none => false
  | some s => !s.1.isEmpty

/-- The target month and year `main` passes to `generate_schedule_dates`
(source line 210): the constants 2 and 2026. -/
def mainTarget : Int × Int := (2, 2026)

/-- The schedule dates `main` generates (source line 210). -/
def mainScheduleDates : List (String × Int) := generate_schedule_dates 2 2026

/-- Modelled from the spec: the defaulting rule of §4.1/§6, "no input defaults to
the calendar month immediately following the current date, incrementing the year
when rolling from December to January".  No such computation exists anywhere in
the source: `generate_schedule_dates` takes its month and year as mandatory
parameters and `main` supplies the fixed values above. -/
def defaultTargetFromSpec (current_month current_year : Int) : Int × Int :=
  if current_month = 12 then (1, current_year + 1) else (current_month + 1, current_year)

/-- The availability cascade exactly as §4.2 of the spec words it: team rules
first, then the blackout-date rule on calendar days, then the cadence rule with
`weeks_diff = floor_div(date − allowed_date, 7 days)` rounded toward negative
infinity, requiring residue 0 mod 2 for Default and 0 mod 4 for Monthly, and
`true` otherwise; a volunteer without an anchor date has no cadence rule. -/
def availableSpec (vol : Volunteer) (day_type : String) (date : Int) : Bool :=
  if vol.team = "sub" then false
  else if vol.team = "saturday" ∧ day_type ≠ "Saturday" then false
  else if vol.team = "sunday" ∧ day_type ≠ "Sunday" then false
  else if calendarDay date ∈ vol.unavailable_dates.map calendarDay then false
  else
    match vol.allowed_date with
    | some ad =>
      let weeks_diff := Int.fdiv (date - ad) (7 * 86400)
      if normFreq vol.frequency = "Default" then decide (weeks_diff % 2 = 0)
      else if normFreq vol.frequency = "Monthly" then decide (weeks_diff % 4 = 0)
      else true
    | none => true

/-- Concrete fixture: a substitute-team volunteer. -/
def volSub : Volunteer := ⟨"Sam", "sub", false, "Weekly", none, [], fun _ => false⟩

/-- Concrete fixture: a Saturday-team volunteer preferring camera 1 only. -/
def volPref : Volunteer := ⟨"Bea", "saturday", false, "Weekly", none, [], fun c => c == 1⟩

/-- Concrete fixture: a Saturday-team volunteer with no declared camera. -/
def volNoPref : Volunteer := ⟨"Cal", "saturday", false, "Weekly", none, [], fun _ => false⟩

/-- Concrete fixture: a weekly volunteer written in upper case, with an anchor date. -/
def volWeekly : Volunteer := ⟨"Dan", "saturday", false, "WEEKLY", some 0, [], fun _ => false⟩

/-- Concrete fixture: a monthly volunteer in mixed case, anchored at the epoch. -/
def volMonthly : Volunteer := ⟨"Eve", "saturday", false, "mOnThLy", some 0, [], fun _ => false⟩

/-- Concrete fixture: a default-frequency volunteer with padding, anchored at the epoch. -/
def volDefault : Volunteer := ⟨"Fay", "sunday", false, " default ", some 0, [], fun _ => false⟩

/-- Characterization of the camera-training pins: `(v, d, c)` is pinned exactly
for an in-range volunteer with some declared preference and an undeclared
camera. -/
theorem cameraForcedZero_mem (vols : List Volunteer) (dates : List (String × Int))
    (v d c : Nat) :
    (v, d, c) ∈ cameraForcedZero vols dates ↔
      v < vols.length ∧ d < dates.length ∧ 1 ≤ c ∧ c ≤ 7 ∧
      has_any_pref (vols.getD v vdef) = true ∧
      (vols.getD v vdef).camera_prefs c = false := by
  unfold cameraForcedZero
  simp only [List.mem_flatMap, List.mem_filterMap, List.mem_map, List.mem_range]
  constructor
  · rintro ⟨v', hv', d', hd', c', ⟨i, hi, rfl⟩, hsome⟩
    by_cases hp : has_any_pref (vols.getD v' vdef) = true ∧
        (vols.getD v' vdef).camera_prefs (i + 1) = false
    · rw [if_pos hp] at hsome
      have h3 := Option.some.inj hsome
      have hv2 : v' = v := congrArg Prod.fst h3
      have hd2 : d' = d := congrArg (fun p => p.2.1) h3
      have hc2 : i + 1 = c := congrArg (fun p => p.2.2) h3
      subst hv2; subst hd2; subst hc2
      exact ⟨hv', hd', by omega, by omega, hp.1, hp.2⟩
    · rw [if_neg hp] at hsome; cases hsome
  · rintro ⟨hv, hd, hc1, hc7, hp, hnp⟩
    exact ⟨v, hv, d, hd, c, ⟨c - 1, by omega, by omega⟩, by rw [if_pos ⟨hp, hnp⟩]⟩

theorem b2i_nonneg (b : Bool) : 0 ≤ b2i b := by cases b <;> simp [b2i]

theorem b2i_le_one (b : Bool) : b2i b ≤ 1 := by cases b <;> simp [b2i]

theorem tier_weight_bounds (vol : Volunteer) :
    0 ≤ tier_weight vol ∧ tier_weight vol ≤ 5000 := by
  unfold tier_weight
  by_cases hp : vol.priority <;>
    by_cases hb : (vol.team = "saturday" ∨ vol.team = "sunday") ∧
      normFreq vol.frequency = "Default" <;>
    simp [hp, hb]

theorem assign_term_bounds (vol : Volunteer) (b : Bool) (q : Prop) [Decidable q] :
    0 ≤ tier_weight vol * b2i b + (if q then 5000 * b2i b else 0) ∧
    tier_weight vol * b2i b + (if q then 5000 * b2i b else 0) ≤ 10000 * b2i b := by
  have ht := tier_weight_bounds vol
  cases b <;> split <;> simp [b2i] <;> constructor <;> linarith [ht.1, ht.2]

theorem objective_bounds (vols : List Volunteer) (dates : List (String × Int))
    (a : Nat → Nat → Nat → Bool) (u : Nat → Nat → Bool) (load : Nat → Int)
    (h : ModelSat vols dates a u load) :
    (-1000000) * unfilledCount dates u ≤ objective vols dates a u ∧
    objective vols dates a u ≤
      (-1000000) * unfilledCount dates u + 10000 * (7 * (dates.length : Int)) := by
  obtain ⟨hcov, -, -, -, -⟩ := h
  unfold objective unfilledCount
  have hfirst : (∑ d ∈ Finset.range dates.length, ∑ c ∈ cams, (-1000000) * b2i (u d c)) =
      (-1000000) * (∑ d ∈ Finset.range dates.length, ∑ c ∈ cams, b2i (u d c)) := by
    rw [Finset.mul_sum]
    exact Finset.sum_congr rfl fun d _ => (Finset.mul_sum _ _ _).symm
  rw [hfirst]
  set P := ∑ v ∈ Finset.range vols.length, ∑ d ∈ Finset.range dates.length, ∑ c ∈ cams,
    (tier_weight (vols.getD v vdef) * b2i (a v d c) +
      (if (vols.getD v vdef).camera_prefs c then 5000 * b2i (a v d c) else 0)) with hPdef
  have hP0 : 0 ≤ P := by
    apply Finset.sum_nonneg; intro v _
    apply Finset.sum_nonneg; intro d _
    apply Finset.sum_nonneg; intro c _
    exact (assign_term_bounds _ _ _).1
  have hcomm : P = ∑ d ∈ Finset.range dates.length, ∑ c ∈ cams,
      ∑ v ∈ Finset.range vols.length,
      (tier_weight (vols.getD v vdef) * b2i (a v d c) +
        (if (vols.getD v vdef).camera_prefs c then 5000 * b2i (a v d c) else 0)) := by
    rw [hPdef, Finset.sum_comm]
    exact Finset.sum_congr rfl fun d _ => Finset.sum_comm
  have hPle : P ≤ 10000 * (7 * (dates.length : Int)) := by
    rw [hcomm]
    have hstep : ∀ d ∈ Finset.range dates.length, ∀ c ∈ cams,
        (∑ v ∈ Finset.range vols.length,
          (tier_weight (vols.getD v vdef) * b2i (a v d c) +
            (if (vols.getD v vdef).camera_prefs c then 5000 * b2i (a v d c) else 0))) ≤
        10000 := by
      intro d hd c hc
      have hsum := hcov d (Finset.mem_range.mp hd) c hc
      have h1 : (∑ v ∈ Finset.range vols.length, b2i (a v d c)) ≤ 1 := by
        have := b2i_nonneg (u d c)
        linarith
      calc (∑ v ∈ Finset.range vols.length,
              (tier_weight (vols.getD v vdef) * b2i (a v d c) +
                (if (vols.getD v vdef).camera_prefs c then 5000 * b2i (a v d c) else 0)))
          ≤ ∑ v ∈ Finset.range vols.length, 10000 * b2i (a v d c) :=
            Finset.sum_le_sum fun v _ => (assign_term_bounds _ _ _).2
        _ = 10000 * (∑ v ∈ Finset.range vols.length, b2i (a v d c)) :=
            (Finset.mul_sum _ _ _).symm
        _ ≤ 10000 * 1 := by linarith
        _ = 10000 := by norm_num
    calc (∑ d ∈ Finset.range dates.length, ∑ c ∈ cams,
            ∑ v ∈ Finset.range vols.length,
            (tier_weight (vols.getD v vdef) * b2i (a v d c) +
              (if (vols.getD v vdef).camera_prefs c then 5000 * b2i (a v d c) else 0)))
        ≤ ∑ d ∈ Finset.range dates.length, ∑ c ∈ cams, (10000 : Int) := by
          apply Finset.sum_le_sum; intro d hd
          exact Finset.sum_le_sum fun c hc => hstep d hd c hc
      _ = 10000 * (7 * (dates.length : Int)) := by
          simp [Finset.sum_const, cams]
          ring
  constructor <;> linarith

/-- Membership in the one-day head chunk of the date loop. -/
theorem dateLoop_head_mem (cur : Int) (p : String × Int) :
    p ∈ (if pyWeekday cur = 5 then [("Saturday", cur)]
         else if pyWeekday cur = 6 then [("Sunday", cur)] else []) ↔
      ((pyWeekday cur = 5 ∧ p = ("Saturday", cur)) ∨
       (pyWeekday cur = 6 ∧ p = ("Sunday", cur))) := by
  by_cases hw5 : pyWeekday cur = 5
  · simp [hw5]
  · by_cases hw6 : pyWeekday cur = 6 <;> simp [hw5, hw6]

theorem dateLoop_mem (p : String × Int) (cur last : Int) :
    (86400 : Int) ∣ cur →
    (p ∈ dateLoop cur last ↔
      (cur ≤ p.2 ∧ p.2 ≤ last ∧ (86400 : Int) ∣ p.2 ∧
        ((pyWeekday p.2 = 5 ∧ p.1 = "Saturday") ∨
         (pyWeekday p.2 = 6 ∧ p.1 = "Sunday")))) := by
  induction cur, last using dateLoop.induct with
  | case1 cur last hle ih =>
    intro hdvd
    have hdvd' : (86400 : Int) ∣ cur + 86400 := dvd_add hdvd dvd_rfl
    rw [dateLoop, if_pos hle, List.mem_append, dateLoop_head_mem, ih hdvd']
    constructor
    · rintro ((⟨hw, rfl⟩ | ⟨hw, rfl⟩) | ⟨h1, h2, hd, htag⟩)
      · exact ⟨le_refl _, hle, hdvd, Or.inl ⟨hw, rfl⟩⟩
      · exact ⟨le_refl _, hle, hdvd, Or.inr ⟨hw, rfl⟩⟩
      · exact ⟨by omega, h2, hd, htag⟩
    · rintro ⟨h1, h2, hd, htag⟩
      by_cases heq : p.2 = cur
      · left
        rcases htag with ⟨hw, ht⟩ | ⟨hw, ht⟩
        · left
          refine ⟨heq ▸ hw, ?_⟩
          rw [Prod.ext_iff]
          exact ⟨ht, heq⟩
        · right
          refine ⟨heq ▸ hw, ?_⟩
          rw [Prod.ext_iff]
          exact ⟨ht, heq⟩
      · right
        exact ⟨by omega, h2, hd, htag⟩
  | case2 cur last hgt =>
    intro hdvd
    rw [dateLoop, if_neg hgt]
    simp only [List.not_mem_nil, false_iff]
    rintro ⟨h1, h2, -, -⟩
    exact hgt (le_trans h1 h2)

theorem dateLoop_pairwise (cur last : Int) :
    (86400 : Int) ∣ cur →
    List.Pairwise (fun p q : String × Int => p.2 < q.2) (dateLoop cur last) := by
  induction cur, last using dateLoop.induct with
  | case1 cur last hle ih =>
    intro hdvd
    have hdvd' : (86400 : Int) ∣ cur + 86400 := dvd_add hdvd dvd_rfl
    rw [dateLoop, if_pos hle, List.pairwise_append]
    refine ⟨?_, ih hdvd', ?_⟩
    · by_cases hw5 : pyWeekday cur = 5
      · simp [hw5]
      · by_cases hw6 : pyWeekday cur = 6 <;> simp [hw5, hw6]
    · intro q hq r hr
      have h1 : q.2 = cur := by
        rcases (dateLoop_head_mem cur q).mp hq with ⟨-, rfl⟩ | ⟨-, rfl⟩ <;> rfl
      have h2 := ((dateLoop_mem r (cur + 86400) last) hdvd').mp hr
      omega
  | case2 cur last hgt =>
    intro hdvd
    rw [dateLoop, if_neg hgt]
    exact List.Pairwise.nil

/-- Upper bound on the number of dates the loop collects: counting, per weekday,
the multiples of the week length between the endpoints.  The loop's invariants
(`current` stays a whole-day point and never exceeds `last` by more than one
day) are hypotheses. -/
theorem dateLoop_length_le (cur last : Int) :
    (86400 : Int) ∣ cur → cur ≤ last + 86400 →
    ((dateLoop cur last).length : Int) ≤
      ((last / 86400 - 2) / 7 - (cur / 86400 - 3) / 7) +
      ((last / 86400 - 3) / 7 - (cur / 86400 - 4) / 7) := by
  induction cur, last using dateLoop.induct with
  | case1 cur last hle ih =>
    intro hdvd hub
    have hdvd' : (86400 : Int) ∣ cur + 86400 := dvd_add hdvd dvd_rfl
    have hrec := ih hdvd' (by omega)
    rw [dateLoop, if_pos hle, List.length_append]
    unfold pyWeekday at *
    by_cases hw5 : (cur / 86400 + 3) % 7 = 5
    · rw [if_pos hw5]
      simp only [List.length_cons, List.length_nil]
      push_cast at hrec ⊢
      omega
    by_cases hw6 : (cur / 86400 + 3) % 7 = 6
    · rw [if_neg hw5, if_pos hw6]
      simp only [List.length_cons, List.length_nil]
      push_cast at hrec ⊢
      omega
    · rw [if_neg hw5, if_neg hw6]
      simp only [List.length_nil]
      push_cast at hrec ⊢
      omega
  | case2 cur last hgt =>
    intro hdvd hub
    rw [dateLoop, if_neg hgt]
    simp only [List.length_nil, Nat.cast_zero]
    omega

/-- A target month spans at most 31 days: its last day lies within 30 days of
its first day (and not before the day preceding it). -/
theorem month_span_le (m y : Int) (h1 : 1 ≤ m) (h2 : m ≤ 12) :
    lastDayOfMonth m y ≤ mkDatetime y m 1 + 30 * 86400 ∧
    mkDatetime y m 1 ≤ lastDayOfMonth m y + 86400 := by
  unfold lastDayOfMonth mkDatetime daysFromCivil
  interval_cases m <;> norm_num <;> omega

/-- A generated month holds at most 10 weekend dates. -/
theorem generated_month_length_le (m y : Int) (h1 : 1 ≤ m) (h2 : m ≤ 12) :
    (generate_schedule_dates m y).length ≤ 10 := by
  have hdvd : (86400 : Int) ∣ mkDatetime y m 1 := ⟨daysFromCivil y m 1, rfl⟩
  have hspan := month_span_le m y h1 h2
  have hlen := dateLoop_length_le (mkDatetime y m 1) (lastDayOfMonth m y) hdvd
    (by omega)
  unfold generate_schedule_dates
  omega

/-- C1: in every valuation satisfying the model of `solve_schedule`, for every
slot (date `d`, camera `c`) the sum of the assigned variables over volunteers
plus the unfilled variable equals 1 — equivalently, exactly one of "some unique
volunteer's assigned variable is true" and "unfilled is true" holds. -/
theorem c1_coverage_exactly_one (vols : List Volunteer) (dates : List (String × Int))
    (a : Nat → Nat → Nat → Bool) (u : Nat → Nat → Bool) (load : Nat → Int)
    (h : ModelSat vols dates a u load)
    (d : Nat) (hd : d < dates.length) (c : Nat) (hc : c ∈ cams) :
    ((∑ v ∈ Finset.range vols.length, b2i (a v d c)) + b2i (u d c) = 1) ∧
    ((u d c = true ∧ ∀ v < vols.length, a v d c = false) ∨
     (u d c = false ∧ ∃ v < vols.length, a v d c = true ∧
        ∀ w < vols.length, a w d c = true → w = v)) := by
  obtain ⟨hcov, -, -, -, -⟩ := h
  have hsum := hcov d hd c hc
  refine ⟨hsum, ?_⟩
  cases hu : u d c with
  | true =>
    left
    refine ⟨rfl, ?_⟩
    rw [hu] at hsum
    simp [b2i] at hsum
    intro v hv
    cases hav : a v d c with
    | false => rfl
    | true =>
      exfalso
      have hv' : v ∈ Finset.filter (fun x => a x d c = true) (Finset.range vols.length) := by
        rw [Finset.mem_filter, Finset.mem_range]; exact ⟨hv, hav⟩
      rw [hsum] at hv'
      exact absurd hv' (Finset.not_mem_empty v)
  | false =>
    right
    refine ⟨rfl, ?_⟩
    rw [hu] at hsum
    simp [b2i] at hsum
    obtain ⟨v0, hv0⟩ := Finset.card_eq_one.mp hsum
    have hv0mem : v0 ∈ Finset.filter (fun x => a x d c = true) (Finset.range vols.length) := by
      rw [hv0]; exact Finset.mem_singleton_self v0
    rw [Finset.mem_filter, Finset.mem_range] at hv0mem
    refine ⟨v0, hv0mem.1, hv0mem.2, ?_⟩
    intro w hw haw
    have hwmem : w ∈ Finset.filter (fun x => a x d c = true) (Finset.range vols.length) := by
      rw [Finset.mem_filter, Finset.mem_range]; exact ⟨hw, haw⟩
    rw [hv0] at hwmem
    exact Finset.mem_singleton.mp hwmem

/-- Witness for C1 on a one-date model with no volunteers, where the slot must
be unfilled. -/
theorem c1_witness :
    ((∑ v ∈ Finset.range (0 : Nat), b2i false) + b2i true = 1) ∧
    ((true = true ∧ ∀ v < (0 : Nat), false = false) ∨
     (true = false ∧ ∃ v < (0 : Nat), false = true ∧
        ∀ w < (0 : Nat), false = true → w = v)) :=
  c1_coverage_exactly_one [] [("Saturday", 0)] (fun _ _ _ => false) (fun _ _ => true)
    (fun _ => 0) (by decide) 0 (by decide) 1 (by decide)

/-- C2: for every volunteer record and every (day_type, date),
`is_volunteer_available` returns exactly the result of the spec's precedence
cascade (`availableSpec`): sub team unconditionally false; saturday/sunday team
false off their day; false when the calendar day (time of day ignored) is
blacked out; for Default or Monthly frequency with an anchor date, false unless
`weeks_diff = floor_div(date − allowed_date, 7 days)` — floored toward negative
infinity — has residue 0 mod 2 (Default) resp. 0 mod 4 (Monthly); otherwise
true, and in particular no cadence restriction without an anchor date. -/
theorem c2_availability_equals_spec_cascade (vol : Volunteer) (day_type : String)
    (date : Int) :
    is_volunteer_available vol day_type date = availableSpec vol day_type date := by
  unfold is_volunteer_available availableSpec
  by_cases h1 : vol.team = "sub"
  · simp [h1]
  by_cases h2 : vol.team = "saturday" ∧ day_type ≠ "Saturday"
  · simp [h1, h2]
  by_cases h3 : vol.team = "sunday" ∧ day_type ≠ "Sunday"
  · simp [h1, h2, h3]
  have hmem : (vol.unavailable_dates.any fun u => calendarDay date = calendarDay u) =
      decide (calendarDay date ∈ vol.unavailable_dates.map calendarDay) := by
    rw [Bool.eq_iff_iff]
    simp only [List.any_eq_true, decide_eq_true_eq, List.mem_map]
    constructor
    · rintro ⟨u, hu, he⟩; exact ⟨u, hu, he.symm⟩
    · rintro ⟨u, hu, he⟩; exact ⟨u, hu, he.symm⟩
  by_cases h4 : calendarDay date ∈ vol.unavailable_dates.map calendarDay
  · simp [h1, h2, h3, hmem, h4]
  cases had : vol.allowed_date with
  | none => simp [h1, h2, h3, hmem, h4]
  | some ad =>
    have hw : Int.fdiv (date - ad) 604800 = (date - ad) / 86400 / 7 := by
      rw [Int.fdiv_eq_ediv _ (by norm_num)]; omega
    by_cases hD : normFreq vol.frequency = "Default"
    · have hM : normFreq vol.frequency ≠ "Monthly" := by rw [hD]; decide
      by_cases hr : (date - ad) / 86400 / 7 % 2 = 0 <;>
        simp [h1, h2, h3, hmem, h4, hD, hM, hw, hr]
    by_cases hM : normFreq vol.frequency = "Monthly"
    · by_cases hr : (date - ad) / 86400 / 7 % 4 = 0 <;>
        simp [h1, h2, h3, hmem, h4, hD, hM, hw, hr]
    · simp [h1, h2, h3, hmem, h4, hD, hM]

/-- C3: in every valuation satisfying the model, each volunteer's total number
of true assigned variables over all dates and cameras is at most the cap of the
volunteer's frequency: 1 for Monthly, 2 for Default and 4 for anything else. -/
theorem c3_frequency_cap (vols : List Volunteer) (dates : List (String × Int))
    (a : Nat → Nat → Nat → Bool) (u : Nat → Nat → Bool) (load : Nat → Int)
    (h : ModelSat vols dates a u load) :
    ∀ v < vols.length,
      (∑ d ∈ Finset.range dates.length, ∑ c ∈ cams, b2i (a v d c)) ≤
        (if normFreq (vols.getD v vdef).frequency = "Monthly" then 1
         else if normFreq (vols.getD v vdef).frequency = "Default" then 2 else 4) := by
  intro v hv
  obtain ⟨-, -, -, -, hload⟩ := h
  obtain ⟨-, -, hsum, hcap⟩ := hload v hv
  rw [← hsum]
  unfold max_cap at hcap
  exact hcap

/-- Witness for C3 on a one-date model with a single sub-team volunteer and the
all-unfilled valuation. -/
theorem c3_witness :
    (∑ d ∈ Finset.range (1 : Nat), ∑ c ∈ cams, b2i false) ≤
      (if normFreq "Weekly" = "Monthly" then 1
       else if normFreq "Weekly" = "Default" then 2 else 4) :=
  c3_frequency_cap [volSub] [("Saturday", 0)] (fun _ _ _ => false) (fun _ _ => true)
    (fun _ => 0) (by decide) 0 (by decide)

/-- C4: in every valuation satisfying the model, a volunteer with at least one
declared preferred camera is only ever assigned to declared cameras, while a
volunteer with no declared preference generates no camera pin at all. -/
theorem c4_camera_specialization (vols : List Volunteer) (dates : List (String × Int))
    (a : Nat → Nat → Nat → Bool) (u : Nat → Nat → Bool) (load : Nat → Int)
    (h : ModelSat vols dates a u load) (v : Nat) (hv : v < vols.length) :
    (has_any_pref (vols.getD v vdef) = true →
      ∀ d < dates.length, ∀ c ∈ cams, a v d c = true →
        (vols.getD v vdef).camera_prefs c = true) ∧
    (has_any_pref (vols.getD v vdef) = false →
      ∀ d c, (v, d, c) ∉ cameraForcedZero vols dates) := by
  obtain ⟨-, -, -, hcam, -⟩ := h
  constructor
  · intro hp d hd c hc ha
    cases hpc : (vols.getD v vdef).camera_prefs c with
    | true => rfl
    | false =>
      exfalso
      have hc17 := Finset.mem_Icc.mp hc
      have hmem : (v, d, c) ∈ cameraForcedZero vols dates :=
        (cameraForcedZero_mem vols dates v d c).mpr
          ⟨hv, hd, hc17.1, hc17.2, hp, hpc⟩
      have hzero := hcam (v, d, c) hmem
      rw [ha] at hzero
      cases hzero
  · intro hp d c hmem
    have := (cameraForcedZero_mem vols dates v d c).mp hmem
    rw [hp] at this
    cases this.2.2.2.2.1

/-- Witness for C4: the preferring volunteer only sits on camera 1, and the
preference-free volunteer is pinned on no camera. -/
theorem c4_witness :
    volPref.camera_prefs 1 = true ∧
    (0, 0, 3) ∉ cameraForcedZero [volNoPref] [("Saturday", 0)] :=
  ⟨(c4_camera_specialization [volPref] [("Saturday", 0)]
      (fun v d c => decide (v = 0 ∧ d = 0 ∧ c = 1)) (fun _ c => decide (c ≠ 1))
      (fun _ => 1) (by decide) 0 (by decide)).1 (by decide) 0 (by decide) 1
        (by decide) (by decide),
   (c4_camera_specialization [volNoPref] [("Saturday", 0)]
      (fun v d c => decide (v = 0 ∧ d = 0 ∧ c = 1)) (fun _ c => decide (c ≠ 1))
      (fun _ => 1) (by decide) 0 (by decide)).2 (by decide) 0 3⟩

/-- C5: the unfilled penalty dominates every other objective term — whenever one
satisfying valuation leaves strictly fewer slots unfilled than another, its
objective is strictly greater (tier weights are at most 5000 and camera bonuses
at most 5000 per assignment, against 1,000,000 per slot), hence every
objective-maximal satisfying valuation minimizes the number of unfilled slots.
The hypothesis that the model has at most 14 dates holds for every schedule the
program builds: a generated month has at most 14 (indeed 10) weekend dates, as
the first conjunct states. -/
theorem c5_unfilled_penalty_dominates (vols : List Volunteer) (dates : List (String × Int))
    (hD : dates.length ≤ 14) :
    (∀ m y : Int, 1 ≤ m → m ≤ 12 → (generate_schedule_dates m y).length ≤ 14) ∧
    (∀ a1 u1 l1 a2 u2 l2, ModelSat vols dates a1 u1 l1 → ModelSat vols dates a2 u2 l2 →
        unfilledCount dates u1 < unfilledCount dates u2 →
        objective vols dates a2 u2 < objective vols dates a1 u1) ∧
    (∀ a u l, ModelSat vols dates a u l →
        (∀ a2 u2 l2, ModelSat vols dates a2 u2 l2 →
            objective vols dates a2 u2 ≤ objective vols dates a u) →
        ∀ a2 u2 l2, ModelSat vols dates a2 u2 l2 →
          unfilledCount dates u ≤ unfilledCount dates u2) := by
  have hD' : (dates.length : Int) ≤ 14 := by exact_mod_cast hD
  have hpart1 : ∀ a1 u1 l1 a2 u2 l2, ModelSat vols dates a1 u1 l1 →
      ModelSat vols dates a2 u2 l2 →
      unfilledCount dates u1 < unfilledCount dates u2 →
      objective vols dates a2 u2 < objective vols dates a1 u1 := by
    intro a1 u1 l1 a2 u2 l2 h1 h2 hlt
    obtain ⟨hlo1, -⟩ := objective_bounds vols dates a1 u1 l1 h1
    obtain ⟨-, hhi2⟩ := objective_bounds vols dates a2 u2 l2 h2
    have hstep : unfilledCount dates u1 + 1 ≤ unfilledCount dates u2 := hlt
    linarith
  refine ⟨fun m y hm1 hm2 =>
    le_trans (generated_month_length_le m y hm1 hm2) (by norm_num), hpart1, ?_⟩
  intro a u l h hmax a2 u2 l2 h2
  by_contra hlt
  push_neg at hlt
  have hgt := hpart1 a2 u2 l2 a u l h2 h hlt
  have hle := hmax a2 u2 l2 h2
  linarith

/-- Witness for C5: on a one-date model with a single available volunteer, the
all-unfilled valuation scores strictly below the one that fills camera 1. -/
theorem c5_witness :
    (generate_schedule_dates 2 2026).length ≤ 14 ∧
    (objective [volNoPref] [("Saturday", 0)] (fun _ _ _ => false) (fun _ _ => true) <
     objective [volNoPref] [("Saturday", 0)]
       (fun v d c => decide (v = 0 ∧ d = 0 ∧ c = 1)) (fun _ c => decide (c ≠ 1))) :=
  ⟨(c5_unfilled_penalty_dominates [volNoPref] [("Saturday", 0)] (by decide)).1
     2 2026 (by norm_num) (by norm_num),
   (c5_unfilled_penalty_dominates [volNoPref] [("Saturday", 0)] (by decide)).2.1
     (fun v d c => decide (v = 0 ∧ d = 0 ∧ c = 1)) (fun _ c => decide (c ≠ 1))
     (fun _ => 1) (fun _ _ _ => false) (fun _ _ => true) (fun _ => 0)
     (by decide) (by decide) (by decide)⟩

/-- C6: for every target month and year, `generate_schedule_dates` is
deterministic (it is a pure function, equal to itself on equal inputs), its
output is strictly ascending by date, and it contains exactly the whole-day
time points lying between the first and the last day of the target month —
the last day being the first of the following month, January of the next year
when the target month is December, minus one day — whose weekday is Saturday
(tagged "Saturday") or Sunday (tagged "Sunday"). -/
theorem c6_schedule_dates_exactly_weekends (target_month target_year : Int) :
    (generate_schedule_dates target_month target_year =
      generate_schedule_dates target_month target_year) ∧
    List.Pairwise (fun p q : String × Int => p.2 < q.2)
      (generate_schedule_dates target_month target_year) ∧
    (∀ p : String × Int, p ∈ generate_schedule_dates target_month target_year ↔
      (mkDatetime target_year target_month 1 ≤ p.2 ∧
       p.2 ≤ lastDayOfMonth target_month target_year ∧
       (86400 : Int) ∣ p.2 ∧
       ((pyWeekday p.2 = 5 ∧ p.1 = "Saturday") ∨
        (pyWeekday p.2 = 6 ∧ p.1 = "Sunday")))) ∧
    lastDayOfMonth 12 target_year = mkDatetime (target_year + 1) 1 1 - 86400 := by
  have hdvd : (86400 : Int) ∣ mkDatetime target_year target_month 1 :=
    ⟨daysFromCivil target_year target_month 1, rfl⟩
  refine ⟨rfl, dateLoop_pairwise _ _ hdvd, fun p => dateLoop_mem p _ _ hdvd, ?_⟩
  unfold lastDayOfMonth
  rw [if_neg (by omega)]

/-- C7: if every volunteer has team sub, the model is still satisfiable (the
all-unfilled valuation satisfies every constraint), and in every satisfying
valuation every slot's unfilled variable is true, every camera cell of every
extracted row carries the unfilled marker, and the total unfilled count is
D×7. -/
theorem c7_all_subs_still_solvable (vols : List Volunteer) (dates : List (String × Int))
    (hsub : ∀ vol ∈ vols, vol.team = "sub") :
    ModelSat vols dates (fun _ _ _ => false) (fun _ _ => true) (fun _ => 0) ∧
    (∀ a u load, ModelSat vols dates a u load →
      (∀ d < dates.length, ∀ c ∈ cams, u d c = true) ∧
      (∀ row ∈ (extract_solution vols dates a u).1, ∀ x ∈ row.cameras,
          x = some "** UNFILLED **") ∧
      (extract_solution vols dates a u).2 = dates.length * 7) := by
  constructor
  · refine ⟨?_, ?_, ?_, ?_, ?_⟩
    · intro d _ c _; simp [b2i]
    · intro v _ d _; simp [b2i]
    · intro v _ d _ c _ _; rfl
    · intro i _; rfl
    · intro v _
      refine ⟨le_refl 0, Int.ofNat_nonneg _, by simp [b2i], ?_⟩
      unfold max_cap
      split
      · norm_num
      split <;> norm_num
  · intro a u load h
    obtain ⟨hcov, -, havail, -, -⟩ := h
    have hafalse : ∀ v < vols.length, ∀ d < dates.length, ∀ c ∈ cams, a v d c = false := by
      intro v hv d hd c hc
      apply havail v hv d hd c hc
      have hmem : vols.getD v vdef ∈ vols := by
        rw [List.getD_eq_getElem vols vdef hv]
        exact List.getElem_mem hv
      have hteam := hsub _ hmem
      unfold is_volunteer_available
      rw [hteam]
      simp
    have hutrue : ∀ d < dates.length, ∀ c ∈ cams, u d c = true := by
      intro d hd c hc
      have hsum := hcov d hd c hc
      have hzero : (∑ v ∈ Finset.range vols.length, b2i (a v d c)) = 0 := by
        apply Finset.sum_eq_zero
        intro v hv
        rw [hafalse v (Finset.mem_range.mp hv) d hd c hc]
        rfl
      rw [hzero, zero_add] at hsum
      revert hsum; unfold b2i; cases u d c <;> simp
    refine ⟨hutrue, ?_, ?_⟩
    · intro row hrow x hx
      unfold extract_solution at hrow
      simp only [List.mem_map, List.mem_range] at hrow
      obtain ⟨d, hd, rfl⟩ := hrow
      simp only [List.mem_map, List.mem_range] at hx
      obtain ⟨c, ⟨i, hi, rfl⟩, rfl⟩ := hx
      unfold extractCamera
      rw [if_pos]
      exact hutrue d hd (i + 1) (by simp [cams, Finset.mem_Icc]; omega)
    · unfold extract_solution
      simp only
      have hmap : (List.range dates.length).map (fun d =>
          (((List.range 7).map (· + 1)).filter (fun c => u d c)).length) =
          (List.range dates.length).map (fun _ => 7) := by
        apply List.map_congr_left
        intro d hd
        have hall : ((List.range 7).map (· + 1)).filter (fun c => u d c) =
            (List.range 7).map (· + 1) := by
          apply List.filter_eq_self.mpr
          intro c hcmem
          simp only [List.mem_map, List.mem_range] at hcmem
          obtain ⟨i, hi, rfl⟩ := hcmem
          exact hutrue d (List.mem_range.mp hd) (i + 1)
            (by simp [cams, Finset.mem_Icc]; omega)
        rw [hall]
        simp
      rw [hmap]
      simp [List.map_const', List.sum_replicate, List.length_range, smul_eq_mul,
        Nat.mul_comm]

/-- Witness for C7 on a one-date model whose only volunteer is a sub. -/
theorem c7_witness :
    (extract_solution [volSub] [("Saturday", 0)] (fun _ _ _ => false)
        (fun _ _ => true)).2 = 7 :=
  ((c7_all_subs_still_solvable [volSub] [("Saturday", 0)] (by decide)).2
    (fun _ _ _ => false) (fun _ _ => true) (fun _ => 0)
    ((c7_all_subs_still_solvable [volSub] [("Saturday", 0)] (by decide)).1)).2.2

/-- C8: whenever the solver status is neither OPTIMAL nor FEASIBLE,
`solve_schedule` returns no schedule at all (`None`), and `main` performs no
export on that result. -/
theorem c8_no_schedule_without_solution (vols : List Volunteer)
    (dates : List (String × Int)) (a : Nat → Nat → Nat → Bool) (u : Nat → Nat → Bool)
    (status : CpStatus) (h1 : status ≠ CpStatus.OPTIMAL) (h2 : status ≠ CpStatus.FEASIBLE) :
    solve_schedule_result vols dates a u status = none ∧
    main_exports (solve_schedule_result vols dates a u status) = false := by
  have h : ¬(status = CpStatus.OPTIMAL ∨ status = CpStatus.FEASIBLE) := by tauto
  refine ⟨by simp [solve_schedule_result, h], ?_⟩
  simp [solve_schedule_result, h, main_exports]

/-- Witness for C8 at the INFEASIBLE status. -/
theorem c8_witness :
    solve_schedule_result [] [] (fun _ _ _ => false) (fun _ _ => false)
        CpStatus.INFEASIBLE = none ∧
    main_exports (solve_schedule_result [] [] (fun _ _ _ => false) (fun _ _ => false)
        CpStatus.INFEASIBLE) = false :=
  c8_no_schedule_without_solution [] [] (fun _ _ _ => false) (fun _ _ => false)
    CpStatus.INFEASIBLE (by decide) (by decide)

/-- C9 fails on the code: the repository has no defaulting path at all — `main`,
the only entry point, hard-codes target month 2 and year 2026 into the date
generation, which for a run whose current date lies in October 2026 is not the
month immediately following it (the spec's rule would give November 2026). -/
theorem c9_counterexample :
    defaultTargetFromSpec 10 2026 = (11, 2026) ∧
    mainTarget ≠ defaultTargetFromSpec 10 2026 ∧
    mainTarget = (2, 2026) := by
  decide

/-- C9 (amended): date generation takes an explicit target month and year and
computes no default from the current date — `main` always schedules the fixed
month 2 of year 2026 — and the December→January rollover exists only in the
last-day computation. -/
theorem c9_amended_fixed_target :
    mainTarget = (2, 2026) ∧
    mainScheduleDates = generate_schedule_dates 2 2026 ∧
    (∀ y : Int, lastDayOfMonth 12 y = mkDatetime (y + 1) 1 1 - 86400) :=
  ⟨rfl, rfl, fun y => by unfold lastDayOfMonth; rw [if_neg (by omega)]⟩

/-- C10: the availability cadence check and the frequency-cap computation
normalize the frequency string identically (strip then capitalize), so they
never classify a volunteer differently: the cap is 1 exactly for normalized
Monthly, 2 exactly for normalized Default and 4 otherwise; a cap-4 volunteer's
availability ignores the anchor date entirely, while a cap-1 (resp. cap-2)
volunteer who passes the team and blackout rules is available exactly when
weeks_diff mod 4 (resp. mod 2) is 0. -/
theorem c10_frequency_classes_agree (vol : Volunteer) (day_type : String) (date : Int) :
    (max_cap vol.frequency = 1 ↔ normFreq vol.frequency = "Monthly") ∧
    (max_cap vol.frequency = 2 ↔ normFreq vol.frequency = "Default") ∧
    (max_cap vol.frequency = 1 ∨ max_cap vol.frequency = 2 ∨ max_cap vol.frequency = 4) ∧
    (max_cap vol.frequency = 4 →
      is_volunteer_available vol day_type date =
        is_volunteer_available { vol with allowed_date := none } day_type date) ∧
    (∀ ad, vol.allowed_date = some ad →
      is_volunteer_available { vol with allowed_date := none } day_type date = true →
      (max_cap vol.frequency = 1 →
        is_volunteer_available vol day_type date =
          decide ((date - ad) / 86400 / 7 % 4 = 0)) ∧
      (max_cap vol.frequency = 2 →
        is_volunteer_available vol day_type date =
          decide ((date - ad) / 86400 / 7 % 2 = 0))) := by
  have hMD : ¬("Monthly" = "Default") := by decide
  by_cases hM : normFreq vol.frequency = "Monthly" <;>
    by_cases hD : normFreq vol.frequency = "Default"
  · exact absurd (hM ▸ hD) hMD
  all_goals refine ⟨?_, ?_, ?_, ?_, ?_⟩
  -- Monthly case
  · simp [max_cap, hM]
  · simp [max_cap, hM, hD]
  · simp [max_cap, hM]
  · intro hcap; exfalso; simp [max_cap, hM] at hcap
  · intro ad had hpass
    unfold is_volunteer_available at hpass ⊢
    by_cases h1 : vol.team = "sub"
    · simp [h1] at hpass
    by_cases h2 : vol.team = "saturday" ∧ day_type ≠ "Saturday"
    · simp [h1, h2] at hpass
    by_cases h3 : vol.team = "sunday" ∧ day_type ≠ "Sunday"
    · simp [h1, h2, h3] at hpass
    by_cases h4 : (vol.unavailable_dates.any fun u => calendarDay date = calendarDay u) = true
    · simp [h1, h2, h3, h4] at hpass
    constructor
    · intro _
      by_cases hr : (date - ad) / 86400 / 7 % 4 = 0 <;>
        simp [h1, h2, h3, h4, had, hM, hD, hr]
    · intro hcap; exfalso; simp [max_cap, hM, hD] at hcap
  -- Default case
  · simp [max_cap, hM, hD]
  · simp [max_cap, hD]
  · simp [max_cap, hM, hD]
  · intro hcap; exfalso; simp [max_cap, hM, hD] at hcap
  · intro ad had hpass
    unfold is_volunteer_available at hpass ⊢
    by_cases h1 : vol.team = "sub"
    · simp [h1] at hpass
    by_cases h2 : vol.team = "saturday" ∧ day_type ≠ "Saturday"
    · simp [h1, h2] at hpass
    by_cases h3 : vol.team = "sunday" ∧ day_type ≠ "Sunday"
    · simp [h1, h2, h3] at hpass
    by_cases h4 : (vol.unavailable_dates.any fun u => calendarDay date = calendarDay u) = true
    · simp [h1, h2, h3, h4] at hpass
    constructor
    · intro hcap; exfalso; simp [max_cap, hM, hD] at hcap
    · intro _
      by_cases hr : (date - ad) / 86400 / 7 % 2 = 0 <;>
        simp [h1, h2, h3, h4, had, hM, hD, hr]
  -- other case
  · simp [max_cap, hM, hD]
  · simp [max_cap, hM, hD]
  · simp [max_cap, hM, hD]
  · intro _
    unfold is_volunteer_available
    by_cases h1 : vol.team = "sub"
    · simp [h1]
    by_cases h2 : vol.team = "saturday" ∧ day_type ≠ "Saturday"
    · simp [h1, h2]
    by_cases h3 : vol.team = "sunday" ∧ day_type ≠ "Sunday"
    · simp [h1, h2, h3]
    by_cases h4 : (vol.unavailable_dates.any fun u => calendarDay date = calendarDay u) = true
    · simp [h1, h2, h3, h4]
    cases had : vol.allowed_date with
    | none => simp [h1, h2, h3, h4]
    | some ad => simp [h1, h2, h3, h4, had, hM, hD]
  · intro ad had hpass
    constructor
    · intro hcap; exfalso; simp [max_cap, hM, hD] at hcap
    · intro hcap; exfalso; simp [max_cap, hM, hD] at hcap

/-- Witness for C10: the upper-case weekly volunteer is cadence-exempt, the
mixed-case monthly volunteer follows the mod-4 rule, the padded default
volunteer the mod-2 rule. -/
theorem c10_witness :
    (is_volunteer_available volWeekly "Saturday" 1209600 =
      is_volunteer_available { volWeekly with allowed_date := none } "Saturday" 1209600) ∧
    (is_volunteer_available volMonthly "Saturday" 1209600 =
      decide ((1209600 - 0) / 86400 / 7 % 4 = 0)) ∧
    (is_volunteer_available volDefault "Sunday" 604800 =
      decide ((604800 - 0) / 86400 / 7 % 2 = 0)) :=
  ⟨(c10_frequency_classes_agree volWeekly "Saturday" 1209600).2.2.2.1 (by decide),
   ((c10_frequency_classes_agree volMonthly "Saturday" 1209600).2.2.2.2 0 rfl
      (by decide)).1 (by decide),
   ((c10_frequency_classes_agree volDefault "Sunday" 604800).2.2.2.2 0 rfl
      (by decide)).2 (by decide)⟩
